import Mathlib

/-!
# logrus-appinsights: the Application Insights hook for logrus

A shallow embedding of `hook.go` and `levels.go`.

* Go maps (`logrus.Fields`, `ignoreFields`, `filters`, `Properties`) are association lists
  with pairwise distinct keys (`AList`).  A `range` loop visits every key once; the model
  visits them in list order, and every statement below is phrased through `lookup` and
  key membership, which do not depend on that order.
* An `interface{}` value is an `Any`: the shapes the hook inspects by type assertion
  (strings, `DependencyData`, `RequestData`), the nil interface, and any other dynamic value
  described by the three methods `formatData` asks about.
* `fmt.Sprintf` is a library function and is taken as a parameter (`Fmt`).
* The telemetry client is an external collaborator: it is modelled by the list of records
  handed to `Track`, and a record by the arguments given to its library constructor
  together with the fields the hook writes afterwards.
* A runtime panic is an explicit outcome.
-/

namespace LogrusAppInsights

/-! ## levels.go -/

/-- The type logrus.Level (an unsigned 32 bit integer; no arithmetic is done on it). -/
abbrev Level := Nat

abbrev PanicLevel : Level := 0
abbrev FatalLevel : Level := 1
abbrev ErrorLevel : Level := 2
abbrev WarnLevel : Level := 3
abbrev InfoLevel : Level := 4
abbrev DebugLevel : Level := 5
abbrev TraceLevel : Level := 6

structure RequestData where
  Method : String
  Url : String
  Duration : Int
  responseCode : String
  deriving DecidableEq

structure DependencyData where
  Name : String
  dependencyType : String
  target : String
  success : Bool
  Data : String
  ResultCode : String
  deriving DecidableEq

/-- The constant block `iota + 1000`: the three pseudo-levels. -/
abbrev Dependency : Level := 0 + 1000
abbrev Request : Level := 1 + 1000
abbrev Exception : Level := 2 + 1000

abbrev DependencyKey : String := "dependency"
abbrev RequestKey : String := "Request"
abbrev ExceptionKey : String := "Exception"

/-- Go error values: `errors.New text`, and `fmt.Errorf("%w: %s", inner, detail)`. -/
inductive GoError where
  | new (text : String)
  | wrap (inner : GoError) (detail : String)
  deriving DecidableEq

/-- The method `Error()`. -/
def GoError.Error : GoError → String
  | GoError.new text => text
  | GoError.wrap inner detail => inner.Error ++ ": " ++ detail

/-- The method `Unwrap()` of an error built with the verb `%w`. -/
def GoError.Unwrap : GoError → Option GoError
  | GoError.new _ => none
  | GoError.wrap inner _ => some inner

/-- The function errors.Is: walks the `Unwrap` chain looking for the target. -/
def GoError.Is : GoError → GoError → Bool
  | GoError.new text, target => decide (GoError.new text = target)
  | GoError.wrap inner detail, target =>
      decide (GoError.wrap inner detail = target) || GoError.Is inner target

def KeyDoesntExist : GoError := GoError.new "key doesn't exist in Data"
def DependencyKeyDoesntExist : GoError := GoError.wrap KeyDoesntExist DependencyKey
def RequestKeyDoesntExist : GoError := GoError.wrap KeyDoesntExist RequestKey
def ExceptionKeyDoesntExist : GoError := GoError.wrap KeyDoesntExist ExceptionKey

def AssertionFailure : GoError := GoError.new "assertion failure"
def DependencyAssertionFailure : GoError := GoError.wrap AssertionFailure DependencyKey
def RequestAssertionFailure : GoError := GoError.wrap AssertionFailure RequestKey
def ExceptionAssertionFailure : GoError := GoError.wrap AssertionFailure ExceptionKey

/-! ## Dynamic values -/

/-- A dynamic value that is none of the shapes the hook asserts on, described by the methods
that `formatData` asks about: whether it has `MarshalJSON`, and what `Error()` and
`String()` return when its type has them. -/
structure Object where
  ident : String
  MarshalJSON : Bool
  Error : Option String
  String : Option String
  deriving DecidableEq

/-- A value of type `interface{}`. -/
inductive Any where
  | nil
  | string (s : String)
  | dependencyData (d : DependencyData)
  | requestData (r : RequestData)
  | object (o : Object)
  deriving DecidableEq

/-- Does the dynamic value implement json.Marshaler? -/
def Any.isMarshaler : Any → Bool
  | Any.object o => o.MarshalJSON
  | _ => false

/-- The text of `Error()` when the dynamic value implements `error`. -/
def Any.asError : Any → Option String
  | Any.object o => o.Error
  | _ => none

/-- The text of `String()` when the dynamic value implements fmt.Stringer. -/
def Any.asStringer : Any → Option String
  | Any.object o => o.String
  | _ => none

/-- The type logrus.Fields, `map[string]interface{}`. -/
abbrev Fields := AList (fun _ : String => Any)

/-- A non-nil context.Context, read through `Value` at string keys. -/
structure Context where
  Value : String → Any

/-- The type logrus.Entry, as far as the hook reads or writes it.  logrus allocates `Data`
for every entry it creates; `Context` is the nil interface unless the caller attached one. -/
structure Entry where
  Data : Fields
  Time : Nat
  Level : Level
  Message : String
  Context : Option Context

/-! ## The telemetry library, as far as the hook uses it -/

/-- The backend severity scale contracts.SeverityLevel; `Verbose` is its zero value. -/
inductive SeverityLevel where
  | Verbose
  | Information
  | Warning
  | Error
  | Critical
  deriving DecidableEq

/-- The library type appinsights.TelemetryConfiguration. -/
structure TelemetryConfiguration where
  InstrumentationKey : String
  EndpointUrl : String
  MaxBatchSize : Int
  MaxBatchInterval : Int
  deriving DecidableEq

/-- The library constructor: the given key with the library defaults (the public ingestion
endpoint, batches of 1024 items, sent every ten seconds, counted in nanoseconds). -/
def NewTelemetryConfiguration (ikey : String) : TelemetryConfiguration :=
  { InstrumentationKey := ikey
    EndpointUrl := "https://dc.services.visualstudio.com/v2/track"
    MaxBatchSize := 1024
    MaxBatchInterval := 10 * 1000000000 }

/-- A trace record: message, severity and the string property map. -/
structure TraceTelemetry where
  Message : String
  SeverityLevel : SeverityLevel
  Properties : AList (fun _ : String => String)

/-- A dependency record: the four constructor arguments and the identifier, `none` while
the hook has not written it. -/
structure RemoteDependencyTelemetry where
  Name : String
  DependencyType : String
  Target : String
  Success : Bool
  Id : Option String
  deriving DecidableEq

/-- A request record: the four constructor arguments and the identifier, `none` while the
hook has not written it (the constructor's own default stays in place). -/
structure RequestTelemetry where
  Method : String
  Url : String
  Duration : Int
  ResponseCode : String
  Id : Option String
  deriving DecidableEq

/-- What can be handed to `Track`. -/
inductive Telemetry where
  | trace (t : TraceTelemetry)
  | dependency (d : RemoteDependencyTelemetry)
  | request (r : RequestTelemetry)

/-- The library constructor appinsights.NewTraceTelemetry returns a pointer, never nil, to a
record with an empty property map. -/
def NewTraceTelemetry (message : String) (severityLevel : SeverityLevel) :
    Option TraceTelemetry :=
  some { Message := message, SeverityLevel := severityLevel, Properties := ∅ }

def NewRemoteDependencyTelemetry (name dependencyType target : String) (success : Bool) :
    RemoteDependencyTelemetry :=
  { Name := name, DependencyType := dependencyType, Target := target, Success := success,
    Id := none }

def NewRequestTelemetry (method uri : String) (duration : Int) (responseCode : String) :
    RequestTelemetry :=
  { Method := method, Url := uri, Duration := duration, ResponseCode := responseCode,
    Id := none }

/-- The telemetry client: its configuration, the cloud role tag, and the records submitted
so far, oldest first. -/
structure TelemetryClient where
  config : TelemetryConfiguration
  role : String
  tracked : List Telemetry

def NewTelemetryClientFromConfig (conf : TelemetryConfiguration) : TelemetryClient :=
  { config := conf, role := "", tracked := [] }

/-- The call `client.Context().Tags.Cloud().SetRole(name)`. -/
def TelemetryClient.SetRole (client : TelemetryClient) (name : String) : TelemetryClient :=
  { client with role := name }

/-- The call `client.Track(item)`: one submission. -/
def TelemetryClient.Track (client : TelemetryClient) (item : Telemetry) : TelemetryClient :=
  { client with tracked := client.tracked ++ [item] }

/-- The two uses of the package fmt: `Sprintf("%v", value)` and the rendering of an entry
with `%+v`. -/
structure Fmt where
  v : Any → String
  plusV : Entry → String

/-! ## hook.go -/

def defaultLevels : List Level :=
  [PanicLevel, FatalLevel, ErrorLevel, WarnLevel, InfoLevel, DebugLevel, TraceLevel]

def levelMap : List (Level × SeverityLevel) :=
  [ (PanicLevel, SeverityLevel.Critical),
    (FatalLevel, SeverityLevel.Critical),
    (ErrorLevel, SeverityLevel.Error),
    (WarnLevel, SeverityLevel.Warning),
    (InfoLevel, SeverityLevel.Information),
    (DebugLevel, SeverityLevel.Verbose),
    (TraceLevel, SeverityLevel.Verbose) ]

/-- The map index expression `levelMap[level]`: the zero value on a missing key. -/
def levelMapAt (level : Level) : SeverityLevel :=
  (levelMap.lookup level).getD SeverityLevel.Verbose

/-- Modelled from the spec: the declaration of the type `Config` is not among the sources;
its four fields are the ones `New` reads (credential, endpoint override, batch size,
batch interval). -/
structure Config where
  InstrumentationKey : String
  EndpointUrl : String
  MaxBatchSize : Int
  MaxBatchInterval : Int
  deriving DecidableEq

structure AppInsightsHook where
  client : TelemetryClient
  async : Bool
  levels : List Level
  ignoreFields : AList (fun _ : String => Unit)
  filters : AList (fun _ : String => Any → Any)

def New (name : String) (conf : Config) : Except GoError AppInsightsHook :=
  if conf.InstrumentationKey = "" then
    Except.error (GoError.new "InstrumentationKey is required and missing from configuration")
  else
    let telemetryConf := NewTelemetryConfiguration conf.InstrumentationKey
    let telemetryConf :=
      if conf.MaxBatchSize ≠ 0 then { telemetryConf with MaxBatchSize := conf.MaxBatchSize }
      else telemetryConf
    let telemetryConf :=
      if conf.MaxBatchInterval ≠ 0 then
        { telemetryConf with MaxBatchInterval := conf.MaxBatchInterval }
      else telemetryConf
    let telemetryConf :=
      if conf.EndpointUrl ≠ "" then { telemetryConf with EndpointUrl := conf.EndpointUrl }
      else telemetryConf
    let telemetryClient := NewTelemetryClientFromConfig telemetryConf
    let telemetryClient :=
      if name ≠ "" then telemetryClient.SetRole name else telemetryClient
    Except.ok
      { client := telemetryClient
        async := false
        levels := defaultLevels
        ignoreFields := ∅
        filters := ∅ }

/-- The configuration is passed by pointer: `none` is the nil pointer. -/
def NewWithAppInsightsConfig (name : String) (conf : Option TelemetryConfiguration) :
    Except GoError AppInsightsHook :=
  match conf with
  | none => Except.error (GoError.new "Nil configuration provided")
  | some conf =>
    if conf.InstrumentationKey = "" then
      Except.error (GoError.new "InstrumentationKey is required in configuration")
    else
      let telemetryClient := NewTelemetryClientFromConfig conf
      let telemetryClient :=
        if name ≠ "" then telemetryClient.SetRole name else telemetryClient
      Except.ok
        { client := telemetryClient
          async := false
          levels := defaultLevels
          ignoreFields := ∅
          filters := ∅ }

def AppInsightsHook.Levels (hook : AppInsightsHook) : List Level :=
  hook.levels

def AppInsightsHook.SetLevels (hook : AppInsightsHook) (levels : List Level) :
    AppInsightsHook :=
  { hook with levels := levels }

def AppInsightsHook.SetAsync (hook : AppInsightsHook) (async : Bool) : AppInsightsHook :=
  { hook with async := async }

def AppInsightsHook.AddIgnore (hook : AppInsightsHook) (name : String) : AppInsightsHook :=
  { hook with ignoreFields := hook.ignoreFields.insert name () }

def AppInsightsHook.AddFilter (hook : AppInsightsHook) (name : String) (fn : Any → Any) :
    AppInsightsHook :=
  { hook with filters := hook.filters.insert name fn }

/-- The type switch of `formatData`: the first matching case wins. -/
def formatData (value : Any) : Any :=
  if value.isMarshaler then value
  else
    match value.asError with
    | some text => Any.string text
    | none =>
      match value.asStringer with
      | some text => Any.string text
      | none => value

/-- One iteration of the `range` loop of `buildTrace`, on the property map. -/
def traceStep (fmt : Fmt) (hook : AppInsightsHook)
    (props : AList (fun _ : String => String)) (k : String) (v : Any) :
    AList (fun _ : String => String) :=
  if k ∈ hook.ignoreFields then props
  else
    match hook.filters.lookup k with
    | some fn => props.insert k (fmt.v (fn v))
    | none => props.insert k (fmt.v (formatData v))

/-- The first statement of `buildTrace`: add the message as a field if it is not one. -/
def addMessage (entry : Entry) : Entry :=
  if "message" ∈ entry.Data then entry
  else { entry with Data := entry.Data.insert "message" (Any.string entry.Message) }

/-- The method `buildTrace`: the trace or the error, and the entry as the call leaves it. -/
def AppInsightsHook.buildTrace (fmt : Fmt) (hook : AppInsightsHook) (entry : Entry) :
    Except GoError TraceTelemetry × Entry :=
  let entry := addMessage entry
  let level := levelMapAt entry.Level
  match NewTraceTelemetry entry.Message level with
  | none =>
    (Except.error
      (GoError.new ("Could not create telemetry trace with entry " ++ fmt.plusV entry)), entry)
  | some trace =>
    (Except.ok { trace with Properties := entry.Data.foldl (traceStep fmt hook) trace.Properties },
      entry)

/-- How a call ends: it returns its error result, or the goroutine panics.  Either way the
client and the entry are the ones the call leaves behind. -/
inductive Outcome where
  | returned (err : Option GoError) (client : TelemetryClient) (entry : Entry)
  | panicked (client : TelemetryClient) (entry : Entry)

def Outcome.client : Outcome → TelemetryClient
  | Outcome.returned _ client _ => client
  | Outcome.panicked client _ => client

def Outcome.entry : Outcome → Entry
  | Outcome.returned _ _ entry => entry
  | Outcome.panicked _ entry => entry

def Outcome.isPanic : Outcome → Bool
  | Outcome.returned _ _ _ => false
  | Outcome.panicked _ _ => true

/-- The statement `entry.Context.Value("request-id").(string)`: a method call on the nil
interface panics (outer `none`); otherwise the comma-ok assertion to a string. -/
def requestIDOf (entry : Entry) : Option (Option String) :=
  match entry.Context with
  | none => none
  | some ctx =>
    match ctx.Value "request-id" with
    | Any.string requestID => some (some requestID)
    | _ => some none

def AppInsightsHook.fireDependency (hook : AppInsightsHook) (entry : Entry) : Outcome :=
  match entry.Data.lookup DependencyKey with
  | none => Outcome.returned (some DependencyKeyDoesntExist) hook.client entry
  | some (Any.dependencyData dependencyData) =>
    let newRemoteDependency :=
      NewRemoteDependencyTelemetry dependencyData.Name dependencyData.dependencyType
        dependencyData.target dependencyData.success
    match requestIDOf entry with
    | none => Outcome.panicked hook.client entry
    | some (some requestID) =>
      Outcome.returned none
        (hook.client.Track
          (Telemetry.dependency { newRemoteDependency with Id := some requestID })) entry
    | some none =>
      Outcome.returned none (hook.client.Track (Telemetry.dependency newRemoteDependency))
        entry
  | some _ => Outcome.returned (some DependencyAssertionFailure) hook.client entry

def AppInsightsHook.fireRequest (hook : AppInsightsHook) (entry : Entry) : Outcome :=
  match entry.Data.lookup RequestKey with
  | none => Outcome.returned (some RequestKeyDoesntExist) hook.client entry
  | some (Any.requestData requestData) =>
    let requestDependency :=
      NewRequestTelemetry requestData.Method requestData.Url requestData.Duration
        requestData.responseCode
    match requestIDOf entry with
    | none => Outcome.panicked hook.client entry
    | some (some requestID) =>
      Outcome.returned none
        (hook.client.Track (Telemetry.request { requestDependency with Id := some requestID }))
        entry
    | some none =>
      Outcome.returned none (hook.client.Track (Telemetry.request requestDependency)) entry
  | some _ => Outcome.returned (some RequestAssertionFailure) hook.client entry

def AppInsightsHook.fire (fmt : Fmt) (hook : AppInsightsHook) (entry : Entry) : Outcome :=
  if entry.Level = Dependency then hook.fireDependency entry
  else if entry.Level = Request then hook.fireRequest entry
  else
    match hook.buildTrace fmt entry with
    | (Except.error err, entry) => Outcome.returned (some err) hook.client entry
    | (Except.ok trace, entry) =>
      Outcome.returned none (hook.client.Track (Telemetry.trace trace)) entry

/-- A goroutine started by `go hook.fire(entry)`: detached, its result discarded. -/
structure Goroutine where
  hook : AppInsightsHook
  entry : Entry

/-- What the goroutine computes once it is scheduled. -/
def Goroutine.run (fmt : Fmt) (g : Goroutine) : Outcome :=
  g.hook.fire fmt g.entry

/-- What `Fire` has done when it returns: its own outcome, and the goroutine it started, if
any. -/
structure FireOutcome where
  result : Outcome
  spawned : Option Goroutine

def AppInsightsHook.Fire (fmt : Fmt) (hook : AppInsightsHook) (entry : Entry) : FireOutcome :=
  if !hook.async then
    { result := hook.fire fmt entry, spawned := none }
  else
    { result := Outcome.returned none hook.client entry
      spawned := some { hook := hook, entry := entry } }

/-! ## Sample values -/

/-- A rendering for `%v` and `%+v`, used at concrete inputs: strings print as themselves, an
error by its text, a Stringer by its string. -/
def sampleFmt : Fmt :=
  { v := fun value =>
      match value with
      | Any.nil => "<nil>"
      | Any.string s => s
      | Any.dependencyData d => d.Name
      | Any.requestData r => r.Method ++ " " ++ r.Url
      | Any.object o => (o.Error.orElse (fun _ => o.String)).getD o.ident
    plusV := fun entry => entry.Message }

def sampleHook : AppInsightsHook :=
  { client := NewTelemetryClientFromConfig (NewTelemetryConfiguration "ikey")
    async := false
    levels := defaultLevels
    ignoreFields := ∅
    filters := ∅ }

/-- A filter that hides the value. -/
def redact (_ : Any) : Any := Any.string "***"

/-- The sample hook with `AddIgnore("secret")` and `AddFilter("password", redact)`. -/
def configuredHook : AppInsightsHook :=
  (sampleHook.AddIgnore "secret").AddFilter "password" redact

/-- A value that is at once a json.Marshaler, an error and a Stringer. -/
def tripleObject : Any :=
  Any.object { ident := "t", MarshalJSON := true, Error := some "boom", String := some "T" }

/-- An error value that is also a Stringer. -/
def errorObject : Any :=
  Any.object { ident := "e", MarshalJSON := false, Error := some "boom", String := some "E" }

/-- An Info entry with three fields and no context. -/
def infoEntry : Entry :=
  { Data :=
      (((∅ : Fields).insert "user" (Any.string "bob")).insert "secret"
        (Any.string "s3cr3t")).insert "password" (Any.string "hunter2")
    Time := 0
    Level := InfoLevel
    Message := "hello"
    Context := none }

/-- A configuration without credential, every other field set. -/
def configWithoutKey : Config :=
  { InstrumentationKey := "", EndpointUrl := "http://e", MaxBatchSize := 7,
    MaxBatchInterval := 3 }

/-- A configuration with only the credential set. -/
def configWithKey : Config :=
  { InstrumentationKey := "key", EndpointUrl := "", MaxBatchSize := 0, MaxBatchInterval := 0 }

def sampleDependency : DependencyData :=
  { Name := "db", dependencyType := "SQL", target := "host", success := true, Data := "",
    ResultCode := "" }

def sampleRequest : RequestData :=
  { Method := "GET", Url := "http://host/x", Duration := 5, responseCode := "200" }

/-- A Dependency entry, well formed, logged without a context. -/
def dependencyEntryNoContext : Entry :=
  { Data := (∅ : Fields).insert DependencyKey (Any.dependencyData sampleDependency)
    Time := 0
    Level := Dependency
    Message := "call"
    Context := none }

/-- A Request entry, well formed, logged without a context. -/
def requestEntryNoContext : Entry :=
  { Data := (∅ : Fields).insert RequestKey (Any.requestData sampleRequest)
    Time := 0
    Level := Request
    Message := "req"
    Context := none }

/-- A context that carries the request identifier "abc". -/
def contextWithId : Context :=
  { Value := fun key => if key = "request-id" then Any.string "abc" else Any.nil }

/-- The well formed Dependency entry, logged with a context that carries an identifier. -/
def dependencyEntryWithContext : Entry :=
  { dependencyEntryNoContext with Context := some contextWithId }

/-- The well formed Request entry, logged with a context that carries an identifier. -/
def requestEntryWithContext : Entry :=
  { requestEntryNoContext with Context := some contextWithId }

/-- A Dependency entry without the dependency field. -/
def dependencyEntryNoField : Entry :=
  { Data := ∅, Time := 0, Level := Dependency, Message := "call", Context := none }

/-! ## Notions used in the statements -/

/-- The string stored for field `k` with value `v`: the filter when one is registered,
the default formatter otherwise. -/
def propertyOf (fmt : Fmt) (hook : AppInsightsHook) (k : String) (v : Any) : String :=
  match hook.filters.lookup k with
  | some fn => fmt.v (fn v)
  | none => fmt.v (formatData v)

/-- The identifier the hook writes on a record, given a context that is not nil. -/
def identifierFrom (ctx : Context) : Option String :=
  match ctx.Value "request-id" with
  | Any.string requestID => some requestID
  | _ => none

/-! ## Lemmas on the loop of `buildTrace` -/

theorem traceStep_ignored (fmt : Fmt) (hook : AppInsightsHook)
    (props : AList (fun _ : String => String)) (k : String) (v : Any)
    (hk : k ∈ hook.ignoreFields) : traceStep fmt hook props k v = props := by
  simp [traceStep, hk]

theorem traceStep_kept (fmt : Fmt) (hook : AppInsightsHook)
    (props : AList (fun _ : String => String)) (k : String) (v : Any)
    (hk : k ∉ hook.ignoreFields) :
    traceStep fmt hook props k v = props.insert k (propertyOf fmt hook k v) := by
  unfold traceStep propertyOf
  rw [if_neg hk]
  cases hook.filters.lookup k <;> rfl

theorem lookup_traceStep_ne (fmt : Fmt) (hook : AppInsightsHook)
    (props : AList (fun _ : String => String)) (k : String) (v : Any) (j : String)
    (hj : j ≠ k) : (traceStep fmt hook props k v).lookup j = props.lookup j := by
  by_cases hk : k ∈ hook.ignoreFields
  · rw [traceStep_ignored fmt hook props k v hk]
  · rw [traceStep_kept fmt hook props k v hk, AList.lookup_insert_ne hj]

theorem lookup_foldl_traceStep_of_not_mem (fmt : Fmt) (hook : AppInsightsHook)
    (l : List (Sigma fun _ : String => Any)) (j : String) (hj : j ∉ l.keys) :
    ∀ props : AList (fun _ : String => String),
      (l.foldl (fun r a => traceStep fmt hook r a.1 a.2) props).lookup j = props.lookup j := by
  induction l with
  | nil => intro props; rfl
  | cons a l ih =>
    intro props
    have hne : j ≠ a.1 := fun h => hj (by simp [List.keys, h])
    have hrest : j ∉ l.keys := fun h => hj (by
      have : j ∈ a.1 :: l.keys := List.mem_cons_of_mem _ h
      simpa [List.keys] using this)
    rw [List.foldl_cons, ih hrest, lookup_traceStep_ne fmt hook props a.1 a.2 j hne]

theorem lookup_foldl_traceStep_ignored (fmt : Fmt) (hook : AppInsightsHook)
    (l : List (Sigma fun _ : String => Any)) (j : String) (hj : j ∈ hook.ignoreFields) :
    ∀ props : AList (fun _ : String => String),
      (l.foldl (fun r a => traceStep fmt hook r a.1 a.2) props).lookup j = props.lookup j := by
  induction l with
  | nil => intro props; rfl
  | cons a l ih =>
    intro props
    rw [List.foldl_cons, ih]
    by_cases h : j = a.1
    · subst h
      rw [traceStep_ignored fmt hook props _ a.2 hj]
    · exact lookup_traceStep_ne fmt hook props a.1 a.2 j h

theorem lookup_foldl_traceStep_mem (fmt : Fmt) (hook : AppInsightsHook)
    (l : List (Sigma fun _ : String => Any)) (k : String) (v : Any)
    (hk : k ∉ hook.ignoreFields) (hl : l.NodupKeys) (hmem : Sigma.mk k v ∈ l) :
    ∀ props : AList (fun _ : String => String),
      (l.foldl (fun r a => traceStep fmt hook r a.1 a.2) props).lookup k
        = some (propertyOf fmt hook k v) := by
  induction l with
  | nil => exact absurd hmem (List.not_mem_nil _)
  | cons a l ih =>
    intro props
    rw [List.nodupKeys_cons] at hl
    rw [List.foldl_cons]
    rcases List.mem_cons.mp hmem with heq | hin
    · subst heq
      rw [lookup_foldl_traceStep_of_not_mem fmt hook l k hl.1, traceStep_kept fmt hook props k v hk,
        AList.lookup_insert]
    · exact ih hl.2 hin _

/-- The property map built by the loop, read at a key. -/
theorem lookup_foldl_traceStep (fmt : Fmt) (hook : AppInsightsHook) (data : Fields)
    (j : String) :
    (data.foldl (traceStep fmt hook) ∅).lookup j =
      if j ∈ hook.ignoreFields then none
      else (data.lookup j).map (propertyOf fmt hook j) := by
  unfold AList.foldl
  by_cases hj : j ∈ hook.ignoreFields
  · rw [if_pos hj, lookup_foldl_traceStep_ignored fmt hook _ j hj, AList.lookup_empty]
  · rw [if_neg hj]
    cases hlook : data.lookup j with
    | none =>
      have hnot : j ∉ data.entries.keys := by
        have := AList.lookup_eq_none.mp hlook
        simpa [AList.mem_keys, AList.keys] using this
      rw [lookup_foldl_traceStep_of_not_mem fmt hook _ j hnot, AList.lookup_empty]
      rfl
    | some v =>
      have hmem : Sigma.mk j v ∈ data.entries := AList.mem_lookup_iff.mp hlook
      rw [lookup_foldl_traceStep_mem fmt hook _ j v hj data.nodupKeys hmem]
      rfl

theorem buildTrace_eq (fmt : Fmt) (hook : AppInsightsHook) (entry : Entry) :
    hook.buildTrace fmt entry =
      (Except.ok
        { Message := (addMessage entry).Message
          SeverityLevel := levelMapAt (addMessage entry).Level
          Properties := (addMessage entry).Data.foldl (traceStep fmt hook) ∅ },
        addMessage entry) := rfl

theorem addMessage_Message (entry : Entry) : (addMessage entry).Message = entry.Message := by
  unfold addMessage; split <;> rfl

theorem addMessage_Level (entry : Entry) : (addMessage entry).Level = entry.Level := by
  unfold addMessage; split <;> rfl

theorem addMessage_Context (entry : Entry) : (addMessage entry).Context = entry.Context := by
  unfold addMessage; split <;> rfl

theorem addMessage_Time (entry : Entry) : (addMessage entry).Time = entry.Time := by
  unfold addMessage; split <;> rfl

/-- Every field the entry had keeps its value when the message is added. -/
theorem addMessage_lookup (entry : Entry) (k : String) (v : Any)
    (h : entry.Data.lookup k = some v) : (addMessage entry).Data.lookup k = some v := by
  unfold addMessage
  split
  · exact h
  · rename_i hmsg
    have hne : k ≠ "message" := by
      intro heq
      subst heq
      exact hmsg (AList.lookup_isSome.mp (by rw [h]; rfl))
    show (entry.Data.insert "message" (Any.string entry.Message)).lookup k = some v
    rw [AList.lookup_insert_ne hne, h]

/-! ## Severity mapping -/

/-- C5: every one of the seven levels of `defaultLevels` has an entry in `levelMap`, the
entries are Panic to Critical, Fatal to Critical, Error to Error, Warn to Warning, Info to
Information, Debug to Verbose and Trace to Verbose, and for an entry at one of these levels
`buildTrace` succeeds with a trace whose severity is that table entry. -/
theorem severity_mapping_total_fixed :
    (∀ level ∈ defaultLevels, ∃ severity, levelMap.lookup level = some severity) ∧
    levelMap.lookup PanicLevel = some SeverityLevel.Critical ∧
    levelMap.lookup FatalLevel = some SeverityLevel.Critical ∧
    levelMap.lookup ErrorLevel = some SeverityLevel.Error ∧
    levelMap.lookup WarnLevel = some SeverityLevel.Warning ∧
    levelMap.lookup InfoLevel = some SeverityLevel.Information ∧
    levelMap.lookup DebugLevel = some SeverityLevel.Verbose ∧
    levelMap.lookup TraceLevel = some SeverityLevel.Verbose ∧
    (∀ (fmt : Fmt) (hook : AppInsightsHook) (entry : Entry), entry.Level ∈ defaultLevels →
      ∃ trace, (hook.buildTrace fmt entry).1 = Except.ok trace ∧
        levelMap.lookup entry.Level = some trace.SeverityLevel) := by
  have hall : ∀ level ∈ defaultLevels, levelMap.lookup level = some (levelMapAt level) := by
    decide
  refine ⟨fun level hlevel => ⟨_, hall level hlevel⟩, by decide, by decide, by decide,
    by decide, by decide, by decide, by decide, ?_⟩
  intro fmt hook entry hlevel
  refine ⟨_, by rw [buildTrace_eq], ?_⟩
  show levelMap.lookup entry.Level = some (levelMapAt (addMessage entry).Level)
  rw [addMessage_Level]
  exact hall _ hlevel

theorem severity_mapping_total_fixed_witness :
    InfoLevel ∈ defaultLevels ∧
    ∃ trace, (configuredHook.buildTrace sampleFmt infoEntry).1 = Except.ok trace ∧
      levelMap.lookup infoEntry.Level = some trace.SeverityLevel :=
  ⟨by decide,
    severity_mapping_total_fixed.2.2.2.2.2.2.2.2 sampleFmt configuredHook infoEntry (by decide)⟩

/-! ## The default formatter -/

/-- C8: `formatData` applies its cases in a fixed order: a json.Marshaler is returned
unchanged whatever else it implements; otherwise an error is replaced by its `Error()`
text, also when it is a Stringer; otherwise a Stringer is replaced by its `String()` text;
every other value is returned unchanged. -/
theorem formatData_priority (value : Any) :
    (value.isMarshaler = true → formatData value = value) ∧
    (∀ text, value.isMarshaler = false → value.asError = some text →
      formatData value = Any.string text) ∧
    (∀ text, value.isMarshaler = false → value.asError = none →
      value.asStringer = some text → formatData value = Any.string text) ∧
    (value.isMarshaler = false → value.asError = none → value.asStringer = none →
      formatData value = value) := by
  refine ⟨?_, ?_, ?_, ?_⟩
  · intro hm
    simp [formatData, hm]
  · intro text hm he
    simp [formatData, hm, he]
  · intro text hm he hs
    simp [formatData, hm, he, hs]
  · intro hm he hs
    simp [formatData, hm, he, hs]

theorem formatData_priority_witness :
    (tripleObject.isMarshaler = true ∧ tripleObject.asError = some "boom" ∧
      tripleObject.asStringer = some "T" ∧ formatData tripleObject = tripleObject) ∧
    (errorObject.isMarshaler = false ∧ errorObject.asError = some "boom" ∧
      errorObject.asStringer = some "E" ∧ formatData errorObject = Any.string "boom") :=
  ⟨⟨rfl, rfl, rfl, (formatData_priority tripleObject).1 rfl⟩,
    ⟨rfl, rfl, rfl, (formatData_priority errorObject).2.1 "boom" rfl rfl⟩⟩

/-! ## Construction -/

/-- C7: with an empty credential both constructors fail, returning an error and no hook,
for every service name and every value of the other configuration fields, and so does
`NewWithAppInsightsConfig` on a nil configuration; with a non-empty credential both return a
hook and no error. -/
theorem construction_requires_credential (name : String) :
    (∀ conf : Config, conf.InstrumentationKey = "" → ∃ err, New name conf = Except.error err) ∧
    (∃ err, NewWithAppInsightsConfig name none = Except.error err) ∧
    (∀ conf : TelemetryConfiguration, conf.InstrumentationKey = "" →
      ∃ err, NewWithAppInsightsConfig name (some conf) = Except.error err) ∧
    (∀ conf : Config, conf.InstrumentationKey ≠ "" → ∃ hook, New name conf = Except.ok hook) ∧
    (∀ conf : TelemetryConfiguration, conf.InstrumentationKey ≠ "" →
      ∃ hook, NewWithAppInsightsConfig name (some conf) = Except.ok hook) := by
  refine ⟨?_, ⟨_, rfl⟩, ?_, ?_, ?_⟩
  · intro conf hkey
    unfold New
    rw [if_pos hkey]
    exact ⟨_, rfl⟩
  · intro conf hkey
    show ∃ err, (if conf.InstrumentationKey = "" then _ else _) = Except.error err
    rw [if_pos hkey]
    exact ⟨_, rfl⟩
  · intro conf hkey
    unfold New
    rw [if_neg hkey]
    exact ⟨_, rfl⟩
  · intro conf hkey
    show ∃ hook, (if conf.InstrumentationKey = "" then _ else _) = Except.ok hook
    rw [if_neg hkey]
    exact ⟨_, rfl⟩

theorem construction_requires_credential_witness :
    (∃ err, New "svc" configWithoutKey = Except.error err) ∧
    (∃ hook, New "svc" configWithKey = Except.ok hook) ∧
    (∃ err, NewWithAppInsightsConfig "svc" (some (NewTelemetryConfiguration "")) =
        Except.error err) ∧
    (∃ hook, NewWithAppInsightsConfig "svc" (some (NewTelemetryConfiguration "key")) =
        Except.ok hook) :=
  ⟨(construction_requires_credential "svc").1 _ rfl,
    (construction_requires_credential "svc").2.2.2.1 _ (by decide),
    (construction_requires_credential "svc").2.2.1 _ rfl,
    (construction_requires_credential "svc").2.2.2.2 _ (by decide)⟩

/-! ## The ignore set -/

/-- C10: `AddIgnore` is idempotent: calling it twice with a name gives the same hook as
calling it once; the ignore set then holds the name exactly once, membership of every other
name and every other hook field are as before, and a trace built afterwards is the same in
both cases. -/
theorem AddIgnore_idempotent (hook : AppInsightsHook) (name : String) :
    (hook.AddIgnore name).AddIgnore name = hook.AddIgnore name ∧
    (hook.AddIgnore name).ignoreFields.keys.count name = 1 ∧
    (∀ other, other ≠ name →
      (other ∈ (hook.AddIgnore name).ignoreFields ↔ other ∈ hook.ignoreFields)) ∧
    (hook.AddIgnore name).client = hook.client ∧
    (hook.AddIgnore name).async = hook.async ∧
    (hook.AddIgnore name).levels = hook.levels ∧
    (hook.AddIgnore name).filters = hook.filters ∧
    (∀ (fmt : Fmt) (entry : Entry),
      ((hook.AddIgnore name).AddIgnore name).buildTrace fmt entry =
        (hook.AddIgnore name).buildTrace fmt entry) := by
  have htwice : (hook.AddIgnore name).AddIgnore name = hook.AddIgnore name := by
    simp [AppInsightsHook.AddIgnore, AList.insert_insert]
  refine ⟨htwice, ?_, ?_, rfl, rfl, rfl, rfl, ?_⟩
  · apply List.count_eq_one_of_mem (AList.keys_nodup _)
    rw [← AList.mem_keys]
    exact (AList.mem_insert _).mpr (Or.inl rfl)
  · intro other hne
    show other ∈ hook.ignoreFields.insert name () ↔ other ∈ hook.ignoreFields
    rw [AList.mem_insert]
    exact ⟨fun h => h.resolve_left hne, Or.inr⟩
  · intro fmt entry
    rw [htwice]

theorem AddIgnore_idempotent_witness :
    "user" ∉ (sampleHook.AddIgnore "secret").ignoreFields ∧
    (((sampleHook.AddIgnore "secret").AddIgnore "secret").buildTrace sampleFmt infoEntry).1 =
      ((sampleHook.AddIgnore "secret").buildTrace sampleFmt infoEntry).1 :=
  ⟨fun h => absurd (((AddIgnore_idempotent sampleHook "secret").2.2.1 "user" (by decide)).mp h)
      (by decide),
    congrArg Prod.fst ((AddIgnore_idempotent sampleHook "secret").2.2.2.2.2.2.2 sampleFmt
      infoEntry)⟩

/-! ## Asynchronous delivery -/

/-- C6: with async delivery enabled `Fire` returns nil for every entry, having only started
the goroutine that runs the dispatch on that entry, whatever that dispatch returns; with
async delivery disabled `Fire` returns exactly the result of the synchronous dispatch. -/
theorem Fire_async_returns_nil (fmt : Fmt) (hook : AppInsightsHook) (entry : Entry) :
    (hook.async = true →
      hook.Fire fmt entry =
        { result := Outcome.returned none hook.client entry
          spawned := some { hook := hook, entry := entry } }) ∧
    (hook.async = false →
      hook.Fire fmt entry = { result := hook.fire fmt entry, spawned := none }) := by
  constructor
  · intro h
    simp [AppInsightsHook.Fire, h]
  · intro h
    simp [AppInsightsHook.Fire, h]

theorem Fire_async_returns_nil_witness :
    (sampleHook.SetAsync true).fire sampleFmt dependencyEntryNoField =
      Outcome.returned (some DependencyKeyDoesntExist) (sampleHook.SetAsync true).client
        dependencyEntryNoField ∧
    (sampleHook.SetAsync true).Fire sampleFmt dependencyEntryNoField =
      { result := Outcome.returned none (sampleHook.SetAsync true).client dependencyEntryNoField
        spawned := some { hook := sampleHook.SetAsync true, entry := dependencyEntryNoField } } ∧
    sampleHook.Fire sampleFmt dependencyEntryNoField =
      { result := sampleHook.fire sampleFmt dependencyEntryNoField, spawned := none } :=
  ⟨rfl,
    (Fire_async_returns_nil sampleFmt (sampleHook.SetAsync true) dependencyEntryNoField).1 rfl,
    (Fire_async_returns_nil sampleFmt sampleHook dependencyEntryNoField).2 rfl⟩

/-! ## The trace path -/

/-- The synchronous dispatch at a level that is neither pseudo-level: one trace is built
and tracked. -/
theorem fire_trace_eq (fmt : Fmt) (hook : AppInsightsHook) (entry : Entry)
    (hdep : entry.Level ≠ Dependency) (hreq : entry.Level ≠ Request) :
    hook.fire fmt entry =
      Outcome.returned none
        (hook.client.Track
          (Telemetry.trace
            { Message := (addMessage entry).Message
              SeverityLevel := levelMapAt (addMessage entry).Level
              Properties := (addMessage entry).Data.foldl (traceStep fmt hook) ∅ }))
        (addMessage entry) := by
  unfold AppInsightsHook.fire
  rw [if_neg hdep, if_neg hreq, buildTrace_eq]

theorem true_level_not_pseudo (level : Level) (h : level ∈ defaultLevels) :
    level ≠ Dependency ∧ level ≠ Request := by
  have hall : ∀ l ∈ defaultLevels, l ≠ Dependency ∧ l ≠ Request := by decide
  exact hall level h

/-- C1: for a hook in synchronous mode and an entry at one of the seven true severities,
`Fire` returns no error, starts no goroutine and appends exactly one record to those the
client has received; that record is a trace whose message is the entry's message and whose
property map has no key of the ignore set. -/
theorem Fire_sync_true_level_one_trace (fmt : Fmt) (hook : AppInsightsHook) (entry : Entry)
    (hsync : hook.async = false) (hlevel : entry.Level ∈ defaultLevels) :
    ∃ (trace : TraceTelemetry) (client : TelemetryClient) (after : Entry),
      hook.Fire fmt entry = { result := Outcome.returned none client after, spawned := none } ∧
      client.tracked = hook.client.tracked ++ [Telemetry.trace trace] ∧
      trace.Message = entry.Message ∧
      ∀ k, k ∈ hook.ignoreFields → k ∉ trace.Properties := by
  obtain ⟨hdep, hreq⟩ := true_level_not_pseudo entry.Level hlevel
  refine ⟨⟨(addMessage entry).Message, levelMapAt (addMessage entry).Level,
      (addMessage entry).Data.foldl (traceStep fmt hook) ∅⟩,
    hook.client.Track (Telemetry.trace ⟨(addMessage entry).Message,
      levelMapAt (addMessage entry).Level, (addMessage entry).Data.foldl (traceStep fmt hook) ∅⟩),
    addMessage entry, ?_, rfl, addMessage_Message entry, ?_⟩
  · unfold AppInsightsHook.Fire
    rw [hsync, fire_trace_eq fmt hook entry hdep hreq]
    rfl
  · intro k hk
    apply AList.lookup_eq_none.mp
    show ((addMessage entry).Data.foldl (traceStep fmt hook) ∅).lookup k = none
    rw [lookup_foldl_traceStep, if_pos hk]

theorem Fire_sync_true_level_one_trace_witness :
    configuredHook.async = false ∧ infoEntry.Level ∈ defaultLevels ∧
    "secret" ∈ configuredHook.ignoreFields ∧ "secret" ∈ infoEntry.Data ∧
    ∃ (trace : TraceTelemetry) (client : TelemetryClient) (after : Entry),
      configuredHook.Fire sampleFmt infoEntry =
        { result := Outcome.returned none client after, spawned := none } ∧
      client.tracked = configuredHook.client.tracked ++ [Telemetry.trace trace] ∧
      trace.Message = infoEntry.Message ∧
      ∀ k, k ∈ configuredHook.ignoreFields → k ∉ trace.Properties :=
  ⟨rfl, by decide, by decide, by decide,
    Fire_sync_true_level_one_trace sampleFmt configuredHook infoEntry rfl (by decide)⟩

/-- C2: in the trace built by `buildTrace`, for every field `k` of the entry that is not in
the ignore set, the property stored under `k` is the `%v` rendering of `fn value` when a
filter `fn` is registered for `k` (the default formatter is not applied to the output of
the filter), and the `%v` rendering of `formatData value` when none is. -/
theorem buildTrace_property_values (fmt : Fmt) (hook : AppInsightsHook) (entry : Entry)
    (k : String) (value : Any) (hfield : entry.Data.lookup k = some value)
    (hk : k ∉ hook.ignoreFields) :
    ∃ trace, (hook.buildTrace fmt entry).1 = Except.ok trace ∧
      (∀ fn, hook.filters.lookup k = some fn →
        trace.Properties.lookup k = some (fmt.v (fn value))) ∧
      (hook.filters.lookup k = none →
        trace.Properties.lookup k = some (fmt.v (formatData value))) := by
  refine ⟨_, by rw [buildTrace_eq], ?_, ?_⟩
  · intro fn hfn
    show ((addMessage entry).Data.foldl (traceStep fmt hook) ∅).lookup k = _
    rw [lookup_foldl_traceStep, if_neg hk, addMessage_lookup entry k value hfield]
    simp [propertyOf, hfn]
  · intro hnone
    show ((addMessage entry).Data.foldl (traceStep fmt hook) ∅).lookup k = _
    rw [lookup_foldl_traceStep, if_neg hk, addMessage_lookup entry k value hfield]
    simp [propertyOf, hnone]

theorem buildTrace_property_values_witness :
    (infoEntry.Data.lookup "password" = some (Any.string "hunter2") ∧
      configuredHook.filters.lookup "password" = some redact ∧
      ∃ trace, (configuredHook.buildTrace sampleFmt infoEntry).1 = Except.ok trace ∧
        trace.Properties.lookup "password" = some (sampleFmt.v (redact (Any.string "hunter2")))) ∧
    (infoEntry.Data.lookup "user" = some (Any.string "bob") ∧
      configuredHook.filters.lookup "user" = none ∧
      ∃ trace, (configuredHook.buildTrace sampleFmt infoEntry).1 = Except.ok trace ∧
        trace.Properties.lookup "user" = some (sampleFmt.v (formatData (Any.string "bob")))) :=
  ⟨⟨rfl, rfl,
      (buildTrace_property_values sampleFmt configuredHook infoEntry "password"
        (Any.string "hunter2") rfl (by decide)).imp fun _ h => ⟨h.1, h.2.1 redact rfl⟩⟩,
    ⟨rfl, rfl,
      (buildTrace_property_values sampleFmt configuredHook infoEntry "user"
        (Any.string "bob") rfl (by decide)).imp fun _ h => ⟨h.1, h.2.2 rfl⟩⟩⟩

/-- The auto-inserted message is rendered like any other field. -/
theorem buildTrace_message_property (fmt : Fmt) (hook : AppInsightsHook) (entry : Entry)
    (hmsg : "message" ∉ entry.Data) (hk : "message" ∉ hook.ignoreFields) :
    ∃ trace, (hook.buildTrace fmt entry).1 = Except.ok trace ∧
      trace.Properties.lookup "message" =
        some (propertyOf fmt hook "message" (Any.string entry.Message)) := by
  refine ⟨_, by rw [buildTrace_eq], ?_⟩
  show ((addMessage entry).Data.foldl (traceStep fmt hook) ∅).lookup "message" = _
  rw [lookup_foldl_traceStep, if_neg hk]
  unfold addMessage
  rw [if_neg hmsg]
  show Option.map _ ((entry.Data.insert "message" (Any.string entry.Message)).lookup "message")
    = _
  rw [AList.lookup_insert]
  rfl

/-! ## The entry after `Fire` -/

theorem fireDependency_entry (hook : AppInsightsHook) (entry : Entry) :
    (hook.fireDependency entry).entry = entry := by
  unfold AppInsightsHook.fireDependency
  split
  · rfl
  · dsimp only
    split <;> rfl
  · rfl

theorem fireRequest_entry (hook : AppInsightsHook) (entry : Entry) :
    (hook.fireRequest entry).entry = entry := by
  unfold AppInsightsHook.fireRequest
  split
  · rfl
  · dsimp only
    split <;> rfl
  · rfl

/-- The entry as `Fire` leaves it when it returns or panics. -/
theorem Fire_entry_eq (fmt : Fmt) (hook : AppInsightsHook) (entry : Entry) :
    (hook.Fire fmt entry).result.entry =
      if hook.async = true ∨ entry.Level = Dependency ∨ entry.Level = Request then entry
      else addMessage entry := by
  unfold AppInsightsHook.Fire
  cases hasync : hook.async with
  | true => simp [Outcome.entry]
  | false =>
    by_cases hdep : entry.Level = Dependency
    · simp [AppInsightsHook.fire, hdep, fireDependency_entry]
    · by_cases hreq : entry.Level = Request
      · simp [AppInsightsHook.fire, hdep, hreq, fireRequest_entry]
      · simp [fire_trace_eq fmt hook entry hdep hreq, hdep, hreq, Outcome.entry]

/-- C9, counterexample: `Fire` on an Info entry without a "message" field leaves the entry
with that field added to its field map. -/
theorem Fire_adds_message_field :
    infoEntry.Data.lookup "message" = none ∧
    (configuredHook.Fire sampleFmt infoEntry).result.entry.Data.lookup "message" =
      some (Any.string "hello") ∧
    (configuredHook.Fire sampleFmt infoEntry).result.entry.Data ≠ infoEntry.Data :=
  ⟨rfl, rfl, fun h => absurd (congrArg (AList.lookup "message") h) (by decide)⟩

/-- C9, amended: `Fire` leaves the level, message, context and timestamp of the entry as
they were, and every field of the map keeps its value; every key other than "message" reads
as before; the field map is unchanged in async mode, at the Dependency and Request levels
and whenever it has a "message" key; otherwise (synchronous mode, any other level, no
"message" key) it is the old map with "message" added, holding the entry's message. -/
theorem Fire_entry_frame (fmt : Fmt) (hook : AppInsightsHook) (entry : Entry) :
    (hook.Fire fmt entry).result.entry.Level = entry.Level ∧
    (hook.Fire fmt entry).result.entry.Message = entry.Message ∧
    (hook.Fire fmt entry).result.entry.Context = entry.Context ∧
    (hook.Fire fmt entry).result.entry.Time = entry.Time ∧
    (∀ k value, entry.Data.lookup k = some value →
      (hook.Fire fmt entry).result.entry.Data.lookup k = some value) ∧
    (∀ k, k ≠ "message" →
      (hook.Fire fmt entry).result.entry.Data.lookup k = entry.Data.lookup k) ∧
    (hook.async = true ∨ entry.Level = Dependency ∨ entry.Level = Request ∨
        "message" ∈ entry.Data →
      (hook.Fire fmt entry).result.entry.Data = entry.Data) ∧
    (hook.async = false → entry.Level ≠ Dependency → entry.Level ≠ Request →
        "message" ∉ entry.Data →
      (hook.Fire fmt entry).result.entry.Data =
        entry.Data.insert "message" (Any.string entry.Message)) := by
  rw [Fire_entry_eq]
  by_cases hcond : hook.async = true ∨ entry.Level = Dependency ∨ entry.Level = Request
  · rw [if_pos hcond]
    refine ⟨rfl, rfl, rfl, rfl, fun _ _ h => h, fun _ _ => rfl, fun _ => rfl, ?_⟩
    intro hsync hdep hreq _
    rcases hcond with h | h | h
    · rw [hsync] at h
      exact absurd h (by decide)
    · exact absurd h hdep
    · exact absurd h hreq
  · rw [if_neg hcond]
    refine ⟨addMessage_Level entry, addMessage_Message entry, addMessage_Context entry,
      addMessage_Time entry, addMessage_lookup entry, ?_, ?_, ?_⟩
    · intro k hne
      unfold addMessage
      split
      · rfl
      · exact AList.lookup_insert_ne hne
    · intro h
      rcases h with h | h | h | h
      · exact absurd (Or.inl h) hcond
      · exact absurd (Or.inr (Or.inl h)) hcond
      · exact absurd (Or.inr (Or.inr h)) hcond
      · unfold addMessage
        rw [if_pos h]
    · intro _ _ _ hmsg
      unfold addMessage
      rw [if_neg hmsg]

theorem Fire_entry_frame_witness :
    (configuredHook.async = false ∧ infoEntry.Level ≠ Dependency ∧ infoEntry.Level ≠ Request ∧
      "message" ∉ infoEntry.Data ∧
      (configuredHook.Fire sampleFmt infoEntry).result.entry.Data =
        infoEntry.Data.insert "message" (Any.string infoEntry.Message)) ∧
    (dependencyEntryNoField.Level = Dependency ∧
      (configuredHook.Fire sampleFmt dependencyEntryNoField).result.entry.Data =
        dependencyEntryNoField.Data) :=
  ⟨⟨rfl, by decide, by decide, by decide,
      (Fire_entry_frame sampleFmt configuredHook infoEntry).2.2.2.2.2.2.2 rfl (by decide)
        (by decide) (by decide)⟩,
    ⟨rfl,
      (Fire_entry_frame sampleFmt configuredHook dependencyEntryNoField).2.2.2.2.2.2.1
        (Or.inr (Or.inl rfl))⟩⟩

/-! ## The Dependency and Request paths -/

/-- The sentinel errors wrap their base error and name the key. -/
theorem sentinel_errors :
    DependencyKeyDoesntExist.Is KeyDoesntExist = true ∧
    DependencyKeyDoesntExist.Error = "key doesn't exist in Data: dependency" ∧
    DependencyAssertionFailure.Is AssertionFailure = true ∧
    DependencyAssertionFailure.Error = "assertion failure: dependency" ∧
    RequestKeyDoesntExist.Is KeyDoesntExist = true ∧
    RequestKeyDoesntExist.Error = "key doesn't exist in Data: Request" ∧
    RequestAssertionFailure.Is AssertionFailure = true ∧
    RequestAssertionFailure.Error = "assertion failure: Request" := by
  decide

/-- What `fireDependency` does, case by case: a missing key and a value of another type are
reported and nothing is tracked; a DependencyData with a context is tracked once, with the
identifier of the context when it is a string; a DependencyData without context panics
before anything is tracked. -/
theorem fireDependency_cases (hook : AppInsightsHook) (entry : Entry) :
    (entry.Data.lookup DependencyKey = none →
      hook.fireDependency entry =
        Outcome.returned (some DependencyKeyDoesntExist) hook.client entry) ∧
    (∀ value, entry.Data.lookup DependencyKey = some value →
      (∀ d, value ≠ Any.dependencyData d) →
      hook.fireDependency entry =
        Outcome.returned (some DependencyAssertionFailure) hook.client entry) ∧
    (∀ d ctx, entry.Data.lookup DependencyKey = some (Any.dependencyData d) →
      entry.Context = some ctx →
      hook.fireDependency entry =
        Outcome.returned none
          (hook.client.Track
            (Telemetry.dependency
              { Name := d.Name, DependencyType := d.dependencyType, Target := d.target,
                Success := d.success, Id := identifierFrom ctx })) entry) ∧
    (∀ d, entry.Data.lookup DependencyKey = some (Any.dependencyData d) →
      entry.Context = none →
      hook.fireDependency entry = Outcome.panicked hook.client entry) := by
  refine ⟨?_, ?_, ?_, ?_⟩
  · intro h
    unfold AppInsightsHook.fireDependency
    rw [h]
  · intro value h hne
    unfold AppInsightsHook.fireDependency
    rw [h]
    cases value with
    | dependencyData d => exact absurd rfl (hne d)
    | nil => rfl
    | string _ => rfl
    | requestData _ => rfl
    | object _ => rfl
  · intro d ctx h hctx
    unfold AppInsightsHook.fireDependency
    rw [h]
    simp only [requestIDOf, hctx, identifierFrom, NewRemoteDependencyTelemetry]
    cases ctx.Value "request-id" <;> rfl
  · intro d h hctx
    unfold AppInsightsHook.fireDependency
    rw [h]
    simp only [requestIDOf, hctx]

/-- What `fireRequest` does, case by case, as for `fireDependency`. -/
theorem fireRequest_cases (hook : AppInsightsHook) (entry : Entry) :
    (entry.Data.lookup RequestKey = none →
      hook.fireRequest entry =
        Outcome.returned (some RequestKeyDoesntExist) hook.client entry) ∧
    (∀ value, entry.Data.lookup RequestKey = some value →
      (∀ r, value ≠ Any.requestData r) →
      hook.fireRequest entry =
        Outcome.returned (some RequestAssertionFailure) hook.client entry) ∧
    (∀ r ctx, entry.Data.lookup RequestKey = some (Any.requestData r) →
      entry.Context = some ctx →
      hook.fireRequest entry =
        Outcome.returned none
          (hook.client.Track
            (Telemetry.request
              { Method := r.Method, Url := r.Url, Duration := r.Duration,
                ResponseCode := r.responseCode, Id := identifierFrom ctx })) entry) ∧
    (∀ r, entry.Data.lookup RequestKey = some (Any.requestData r) →
      entry.Context = none →
      hook.fireRequest entry = Outcome.panicked hook.client entry) := by
  refine ⟨?_, ?_, ?_, ?_⟩
  · intro h
    unfold AppInsightsHook.fireRequest
    rw [h]
  · intro value h hne
    unfold AppInsightsHook.fireRequest
    rw [h]
    cases value with
    | requestData r => exact absurd rfl (hne r)
    | nil => rfl
    | string _ => rfl
    | dependencyData _ => rfl
    | object _ => rfl
  · intro r ctx h hctx
    unfold AppInsightsHook.fireRequest
    rw [h]
    simp only [requestIDOf, hctx, identifierFrom, NewRequestTelemetry]
    cases ctx.Value "request-id" <;> rfl
  · intro r h hctx
    unfold AppInsightsHook.fireRequest
    rw [h]
    simp only [requestIDOf, hctx]

/-- With a context, the well formed sample entries are tracked once and carry its
identifier. -/
theorem Fire_pseudo_levels_with_context :
    sampleHook.Fire sampleFmt dependencyEntryWithContext =
      { result :=
          Outcome.returned none
            (sampleHook.client.Track
              (Telemetry.dependency
                { Name := "db", DependencyType := "SQL", Target := "host", Success := true,
                  Id := some "abc" })) dependencyEntryWithContext
        spawned := none } ∧
    sampleHook.Fire sampleFmt requestEntryWithContext =
      { result :=
          Outcome.returned none
            (sampleHook.client.Track
              (Telemetry.request
                { Method := "GET", Url := "http://host/x", Duration := 5, ResponseCode := "200",
                  Id := some "abc" })) requestEntryWithContext
        spawned := none } :=
  ⟨rfl, rfl⟩

/-- C3, at the failing input: a synchronous hook fires a Dependency entry whose
"dependency" field is a DependencyData and which carries no context; the method call on
the nil context panics, so `Fire` neither returns nor submits anything. -/
theorem Fire_dependency_without_context_panics :
    sampleHook.async = false ∧
    dependencyEntryNoContext.Level = Dependency ∧
    dependencyEntryNoContext.Data.lookup DependencyKey =
      some (Any.dependencyData sampleDependency) ∧
    dependencyEntryNoContext.Context = none ∧
    sampleHook.Fire sampleFmt dependencyEntryNoContext =
      { result := Outcome.panicked sampleHook.client dependencyEntryNoContext
        spawned := none } ∧
    (sampleHook.Fire sampleFmt dependencyEntryNoContext).result.isPanic = true ∧
    (sampleHook.Fire sampleFmt dependencyEntryNoContext).result.client.tracked.length = 0 :=
  ⟨rfl, rfl, rfl, rfl, rfl, rfl, rfl⟩

/-- C4, at the failing input: a synchronous hook fires a Request entry whose "Request"
field is a RequestData and which carries no context; the method call on the nil context
panics, so `Fire` neither returns nor submits anything. -/
theorem Fire_request_without_context_panics :
    sampleHook.async = false ∧
    requestEntryNoContext.Level = Request ∧
    requestEntryNoContext.Data.lookup RequestKey = some (Any.requestData sampleRequest) ∧
    requestEntryNoContext.Context = none ∧
    sampleHook.Fire sampleFmt requestEntryNoContext =
      { result := Outcome.panicked sampleHook.client requestEntryNoContext
        spawned := none } ∧
    (sampleHook.Fire sampleFmt requestEntryNoContext).result.isPanic = true ∧
    (sampleHook.Fire sampleFmt requestEntryNoContext).result.client.tracked.length = 0 :=
  ⟨rfl, rfl, rfl, rfl, rfl, rfl, rfl⟩

end LogrusAppInsights
